import Mathlib

/-!
Verification of the mcp_router dispatch-and-background-execution engine
(src/mcp_router/mcp_engine.py, src/mcp_router/types.py), as a shallow
embedding: the engine's two dictionaries become association lists, the
asynchronous runner becomes a pure state transformer parameterized by the
outcome of the external invocation, and external library calls
(json.loads, uuid4, yaml.dump, the MCP client session) become fields of an
explicit environment record.
-/

namespace MCPRouter

/-- types.py, BackgroundToolCallStatus: enumeration of task states. -/
inductive BackgroundToolCallStatus where
  | PENDING
  | COMPLETED
  | FAILED
  | TIMEOUT
deriving DecidableEq, Repr

open BackgroundToolCallStatus

/-- A content block as handled by the router: the model_dump of an MCP
content object, i.e. a finite string-keyed record, embedded as an
association list of key/value pairs. -/
abbrev ContentBlock := List (String × String)

/-- types.py, BackgroundToolCallResult: the task-table record. -/
structure BackgroundToolCallResult where
  status : BackgroundToolCallStatus
  error_message : Option String := none
  results : Option (List ContentBlock) := none
deriving DecidableEq, Repr

/-- A tool as reported by a backend session's list_tools response. -/
structure ToolDef where
  name : String
  description : String
  inputSchema : String
deriving DecidableEq, Repr

/-- Outcome of session.call_tool: MCP either returns content or raises. -/
inductive InvokeResult where
  | ok (raw : List ContentBlock)
  | err (msg : String)
deriving DecidableEq, Repr

/-- The opaque ClientSession handle: list_tools returns the current tool
list; call_tool takes the tool name and the parsed arguments (either may
be absent, since the router passes its optional parameters through). -/
structure Session where
  tools : List ToolDef
  invoke : Option String → Option String → InvokeResult

/-- Python dict lookup d[k] on a string-keyed dict. -/
def dictGet (l : List (String × α)) (k : String) : Option α :=
  List.lookup k l

/-- Python dict lookup where the key expression may be None (a None key is
never present in a string-keyed dict, so the lookup raises KeyError). -/
def dictGetOpt (l : List (String × α)) (k : Option String) : Option α :=
  match k with
  | none => none
  | some s => dictGet l s

/-- Python dict assignment d[k] = v: overwrite in place if present,
append otherwise (insertion order preserved, as in CPython). -/
def dictSet (l : List (String × α)) (k : String) (v : α) : List (String × α) :=
  match l with
  | [] => [(k, v)]
  | (k0, v0) :: rest =>
      if k0 = k then (k, v) :: rest else (k0, v0) :: dictSet rest k v

/-- Python del d[k]: remove the entry for k. -/
def dictDel (l : List (String × α)) (k : String) : List (String × α) :=
  List.filter (fun kv => decide (kv.1 ≠ k)) l

/-- The engine remembers a spawned background unit by the parameters
background_tool_execution was bound with in asyncio.create_task. -/
structure SpawnedTask where
  tool_call_id : String
  server_name : String
  tool_name : Option String
  tool_arguments : Option String
  timeout : Nat
deriving DecidableEq, Repr

/-- mcp_engine.py MCPEngine: the two dicts of __init__ plus the
background_tasks list created in __aenter__. -/
structure EngineState where
  hmap_mcp_server_to_session : List (String × Session)
  hmap_call_id_to_results : List (String × BackgroundToolCallResult)
  background_tasks : List SpawnedTask

/-- Exceptions escaping mcp_router, named as in the spec: unsupportedAction
is the ValueError of the action check; invalidArguments the json.loads
failure; unknownBackend the KeyError on the session dict; unknownCapability
the KeyError on the tool maps of get_description / get_tool_schema;
unknownTaskId the KeyError on the results dict; invocationFailure an
exception propagating out of a synchronous session.call_tool. -/
inductive RouterError where
  | unsupportedAction (action : String)
  | invalidArguments
  | unknownBackend (name : String)
  | unknownCapability
  | unknownTaskId
  | invocationFailure (msg : String)
deriving DecidableEq, Repr

/-- External collaborators, passed explicitly: json.loads (none models a
raised JSONDecodeError, some the parsed value in canonical form), the
str(uuid4()) drawn for this call, and the yaml.dump rendering used by
get_tool_schema (name and input_schema are the varying fields). -/
structure Env where
  parseJson : String → Option String
  uuid : String
  yamlSchema : Option String → String → String

/-- mcp_engine.py run_tool body: content.model_dump() followed by popping
the annotations and meta keys. -/
def cleanContent (c : ContentBlock) : ContentBlock :=
  List.filter (fun kv => decide (kv.1 ≠ "annotations") && decide (kv.1 ≠ "meta")) c

/-- mcp_engine.py run_tool: call the tool on the session, then strip the
transport-internal keys from every returned content block. An exception
from call_tool propagates. -/
def run_tool (session : Session) (tool_name : Option String)
    (tool_arguments : Option String) : InvokeResult :=
  match session.invoke tool_name tool_arguments with
  | .ok raw => .ok (List.map cleanContent raw)
  | .err msg => .err msg

/-- mcp_engine.py background_tool_execution: run_tool under
asyncio.timeout(timeout). The parameter timedOut injects the real-time
race: it is true exactly when the deadline fires before the invocation
returns. The function performs exactly one write to the results table and
nothing else; it returns the updated table. -/
def background_tool_execution (table : List (String × BackgroundToolCallResult))
    (tool_call_id : String) (session : Session) (tool_name : Option String)
    (tool_arguments : Option String) (timeout : Nat) (timedOut : Bool) :
    List (String × BackgroundToolCallResult) :=
  if timedOut then
    dictSet table tool_call_id
      { status := TIMEOUT
        error_message := some ("Tool execution exceeded timeout of " ++ toString timeout ++ " seconds.")
        results := none }
  else
    match run_tool session tool_name tool_arguments with
    | .ok cleaned =>
        dictSet table tool_call_id { status := COMPLETED, results := some cleaned }
    | .err msg =>
        dictSet table tool_call_id { status := FAILED, error_message := some msg, results := none }

/-- The content-dict shape every router-authored block has. -/
def textBlock (t : String) : ContentBlock := [("type", "text"), ("text", t)]

/-- How an f-string renders the str-mixin enum member (its value). -/
def statusText : BackgroundToolCallStatus → String
  | PENDING => "PENDING"
  | COMPLETED => "COMPLETED"
  | FAILED => "FAILED"
  | TIMEOUT => "TIMEOUT"

/-- How an f-string renders an Optional[str]. -/
def optText : Option String → String
  | none => "None"
  | some s => s

/-- The six recognized action strings, in source order. -/
def actionValues : List String :=
  ["list_tools", "get_description", "get_tool_schema", "execute_tool",
   "spawn_tool_in_background", "poll_tool_result"]

/-- The arguments of one mcp_router call, defaults as in the source. -/
structure RouterArgs where
  server_name : String
  action : String
  tool_name : Option String := none
  tool_arguments : Option String := none
  tool_call_id : Option String := none
  timeout : Nat := 60
deriving Repr

/-- A call's outcome paired with the engine state after the call: the
Python engine mutates its fields in place, so a raised exception leaves
whatever state held at the raise point. -/
abbrev RouterResult := Except RouterError (List ContentBlock) × EngineState

/-- The two fixed guidance blocks appended by list_tools. -/
def guidanceSchemaFirst : String :=
  "Do not make assumptions about tool schema, if you have found a tool you want to use, call get_tool_schema action to get its schema. This is important to avoid malformed requests."

def guidanceDescription : String :=
  "Only use get_description action if you are unsure about what a tool does based on its name."

/-- The polling instruction block returned by spawn_tool_in_background. -/
def pollInstruction : String :=
  "Use poll_tool_result action with the tool_call_id to check the status and retrieve results."

/-- A Python dict comprehension over tools keyed by tool.name: left-to-right
insertion, later duplicates overwriting earlier ones. -/
def toolDict (tools : List ToolDef) (f : ToolDef → β) : List (String × β) :=
  List.foldl (fun acc t => dictSet acc t.name (f t)) [] tools

/-- json.loads applied to tool_arguments when it is not None
(mcp_engine.py lines 153-154); an Except so the failure aborts the call. -/
def parseArgsOpt (env : Env) : Option String → Except RouterError (Option String)
  | none => .ok none
  | some s =>
      match env.parseJson s with
      | none => .error .invalidArguments
      | some v => .ok (some v)

/-- The match block of mcp_router (lines 157-235), entered after
validation, argument parsing and session resolution. The final catch-all
is unreachable once the action was validated, mirroring the exhaustive
string match of the source. -/
def routeAction (env : Env) (st : EngineState) (a : RouterArgs)
    (parsedArgs : Option String) (session : Session) : RouterResult :=
  if a.action = "list_tools" then
    (.ok (List.map (fun t => textBlock ("tool_name: " ++ t.name)) session.tools
      ++ [textBlock guidanceSchemaFirst, textBlock guidanceDescription]), st)
  else if a.action = "get_description" then
    match dictGetOpt (toolDict session.tools (fun t => t.description)) a.tool_name with
    | none => (.error .unknownCapability, st)
    | some desc => (.ok [textBlock desc], st)
  else if a.action = "get_tool_schema" then
    match dictGetOpt (toolDict session.tools (fun t => t.inputSchema)) a.tool_name with
    | none => (.error .unknownCapability, st)
    | some schema => (.ok [textBlock (env.yamlSchema a.tool_name schema)], st)
  else if a.action = "execute_tool" then
    match run_tool session a.tool_name parsedArgs with
    | .ok cleaned => (.ok cleaned, st)
    | .err msg => (.error (.invocationFailure msg), st)
  else if a.action = "spawn_tool_in_background" then
    let tool_call_id := env.uuid
    let task : SpawnedTask :=
      { tool_call_id := tool_call_id
        server_name := a.server_name
        tool_name := a.tool_name
        tool_arguments := parsedArgs
        timeout := a.timeout }
    (.ok [textBlock ("tool_call_id: " ++ tool_call_id), textBlock pollInstruction],
      { st with
          hmap_call_id_to_results :=
            dictSet st.hmap_call_id_to_results tool_call_id
              { status := PENDING, results := none }
          background_tasks := st.background_tasks ++ [task] })
  else if a.action = "poll_tool_result" then
    match a.tool_call_id with
    | none => (.error .unknownTaskId, st)
    | some cid =>
        match dictGet st.hmap_call_id_to_results cid with
        | none => (.error .unknownTaskId, st)
        | some result =>
            let table1 :=
              if result.status ≠ PENDING then dictDel st.hmap_call_id_to_results cid
              else st.hmap_call_id_to_results
            let st1 := { st with hmap_call_id_to_results := table1 }
            if result.status = PENDING then
              (.ok [textBlock ("Status: " ++ statusText result.status
                ++ ". The tool execution is still in progress. Please check back later.")], st1)
            else if result.status = COMPLETED then
              (.ok ((result.results).getD []), st1)
            else
              (.ok [textBlock ("Status: " ++ statusText result.status
                ++ ". Error Message: " ++ optText result.error_message)], st1)
  else (.error (.unsupportedAction a.action), st)

/-- mcp_engine.py mcp_router (lines 140-235): validate the action, parse
tool_arguments when supplied, resolve the session by direct key fetch,
then dispatch. In the source, spawn_tool_in_background creates the asyncio
task before inserting the PENDING record, but the task body cannot run
before the router returns (cooperative event loop), so the state returned
here is the state observable at return time. -/
def mcp_router (env : Env) (st : EngineState) (a : RouterArgs) : RouterResult :=
  if a.action ∈ actionValues then
    match parseArgsOpt env a.tool_arguments with
    | .error e => (.error e, st)
    | .ok parsed =>
        match dictGet st.hmap_mcp_server_to_session a.server_name with
        | none => (.error (.unknownBackend a.server_name), st)
        | some session => routeAction env st a parsed session
  else (.error (.unsupportedAction a.action), st)

/-! Startup (types.py MCPStartupConfig / MCPServer / MCPRouterConfig and
mcp_engine.py start_mcp_server / start_all_mcp_servers). -/

/-- types.py MCPStartupConfig. -/
structure MCPStartupConfig where
  command : String
  args : List String := []
  env : List (String × String) := []
deriving DecidableEq, Repr

/-- types.py MCPServer; timeout in seconds, default 30. -/
structure MCPServer where
  name : String
  description : String
  timeout : Nat := 30
  startup : MCPStartupConfig
deriving DecidableEq, Repr

/-- types.py MCPRouterConfig. -/
structure MCPRouterConfig where
  mcpServers : List MCPServer

/-- What happens when one backend is brought up under asyncio.timeout:
the stdio transport and session initialize and answer list_tools in time,
or the deadline fires, or some other exception is raised. -/
inductive StartupOutcome where
  | success (session : Session)
  | timeoutErr
  | failureErr (msg : String)

/-- mcp_engine.py start_mcp_server (lines 66-89): on success return the
session; both asyncio.TimeoutError and any other exception are caught,
logged and turned into None. -/
def start_mcp_server (startOutcome : MCPServer → StartupOutcome)
    (mcp_server : MCPServer) : Option Session :=
  match startOutcome mcp_server with
  | .success s => some s
  | .timeoutErr => none
  | .failureErr _ => none

/-- The yaml.dump({name, description, number_of_tools}) line appended to
mcp_info for one started server, rendered by an external dumper. -/
def serverInfoLine (yamlInfo : String → String → Nat → String)
    (startOutcome : MCPServer → StartupOutcome) (mcp_server : MCPServer) :
    Option String :=
  Option.map (fun s => yamlInfo mcp_server.name mcp_server.description s.tools.length)
    (start_mcp_server startOutcome mcp_server)

/-- One iteration of the loop of start_all_mcp_servers: skip on failure,
else register the session and append its info line. -/
def startAllStep (yamlInfo : String → String → Nat → String)
    (startOutcome : MCPServer → StartupOutcome)
    (acc : List (String × Session) × List String) (mcp_server : MCPServer) :
    List (String × Session) × List String :=
  match start_mcp_server startOutcome mcp_server with
  | none => acc
  | some session =>
      (dictSet acc.1 mcp_server.name session,
       acc.2 ++ [yamlInfo mcp_server.name mcp_server.description session.tools.length])

/-- mcp_engine.py start_all_mcp_servers (lines 91-106): iterate the
configured servers, registering each session that starts and collecting
one info line per started server; return the registry and the joined
summary, or the explicit marker when nothing started. -/
def start_all_mcp_servers (yamlInfo : String → String → Nat → String)
    (startOutcome : MCPServer → StartupOutcome)
    (registry : List (String × Session)) (cfg : MCPRouterConfig) :
    List (String × Session) × String :=
  let out := List.foldl (startAllStep yamlInfo startOutcome) (registry, []) cfg.mcpServers
  (out.1,
   if out.2.isEmpty then "No MCP servers started successfully."
   else String.intercalate "\n###\n" out.2)

/-! Shutdown (mcp_engine.py __aexit__, lines 37-44), as the trace of
observable lifecycle events it produces. -/

/-- Events of the shutdown sequence: task.cancel() on a tracked task, a
tracked task reaching a final state (observed when asyncio.gather over all
of them returns), and the AsyncExitStack releasing one session. -/
inductive ShutdownEvent where
  | cancelled (i : Nat)
  | finalized (i : Nat)
  | sessionReleased (name : String)
deriving DecidableEq, Repr

/-- mcp_engine.py __aexit__: cancel every tracked background task, await
asyncio.gather(*tasks, return_exceptions=True) — which returns only after
every task is in a final state — and only then aclose the exit stack,
which releases the sessions in reverse registration order. taskCount is
the number of tracked tasks; sessionNames the registered backends in
registration order. -/
def aexitTrace (taskCount : Nat) (sessionNames : List String) :
    List ShutdownEvent :=
  List.map ShutdownEvent.cancelled (List.range taskCount)
    ++ List.map ShutdownEvent.finalized (List.range taskCount)
    ++ List.map ShutdownEvent.sessionReleased sessionNames.reverse


/-- N successive spawn calls through mcp_router, the k-th call drawing the
k-th uuid from the given stream; collects each call response and the
final engine state. -/
def spawnMany (parseJson : String → Option String)
    (yamlSchema : Option String → String → String) (a : RouterArgs) :
    EngineState → List String →
    List (Except RouterError (List ContentBlock)) × EngineState
  | st, [] => ([], st)
  | st, u :: rest =>
      let out := mcp_router
        { parseJson := parseJson, uuid := u, yamlSchema := yamlSchema } st a
      let next := spawnMany parseJson yamlSchema a out.2 rest
      (out.1 :: next.1, next.2)

/-- The SpawnedTask recorded for uuid u by one spawn call with parsed
arguments p. -/
def spawnTaskOf (a : RouterArgs) (p : Option String) (u : String) : SpawnedTask :=
  { tool_call_id := u
    server_name := a.server_name
    tool_name := a.tool_name
    tool_arguments := p
    timeout := a.timeout }

/-! Concrete instances used by the witness theorems. -/

/-- A toy json parser: accepts the canonical text 42 only. -/
def wParse : String → Option String := fun s => if s = "42" then some "42" else none

/-- A toy backend session with a single echo tool. -/
def wSession : Session :=
  { tools := [{ name := "echo", description := "echoes the input", inputSchema := "echo-schema" }]
    invoke := fun tn _ =>
      if tn = some "echo" then
        .ok [[("type", "text"), ("text", "hi"), ("annotations", "a"), ("meta", "m")]]
      else .err "tool missing" }

/-- A second toy backend with no tools. -/
def wSession2 : Session :=
  { tools := [], invoke := fun _ _ => .err "no tools" }

/-- A toy environment. -/
def wEnv : Env :=
  { parseJson := wParse, uuid := "uuid-1", yamlSchema := fun _ sch => "schema: " ++ sch }

/-- An engine state with two registered backends and an empty task table. -/
def wState : EngineState :=
  { hmap_mcp_server_to_session := [("alpha", wSession), ("beta", wSession2)]
    hmap_call_id_to_results := []
    background_tasks := [] }

/-- A COMPLETED task record. -/
def wCompleted : BackgroundToolCallResult :=
  { status := COMPLETED
    error_message := none
    results := some [[("type", "text"), ("text", "done")]] }

/-- wState with task t1 COMPLETED. -/
def wStateC : EngineState :=
  { wState with hmap_call_id_to_results := [("t1", wCompleted)] }

/-- wState with task t1 PENDING. -/
def wStateP : EngineState :=
  { wState with hmap_call_id_to_results :=
      [("t1", { status := PENDING, error_message := none, results := none })] }

/-- A FAILED task record. -/
def wFailedRec : BackgroundToolCallResult :=
  { status := FAILED, error_message := some "boom", results := none }

/-- wState with task t1 FAILED. -/
def wStateF : EngineState :=
  { wState with hmap_call_id_to_results := [("t1", wFailedRec)] }

/-- Backend descriptor that will start. -/
def wServerGood : MCPServer :=
  { name := "good", description := "good backend", timeout := 1
    startup := { command := "run-good" } }

/-- Backend descriptor that will time out on startup. -/
def wServerBad : MCPServer :=
  { name := "bad", description := "bad backend", timeout := 1
    startup := { command := "run-bad" } }

/-- Startup outcomes for the witness config: good starts, bad times out. -/
def wStartOutcome : MCPServer → StartupOutcome :=
  fun srv => if srv.name = "good" then .success wSession else .timeoutErr

/-- A toy yaml.dump for the startup summary line. -/
def wYamlInfo : String → String → Nat → String :=
  fun n _ c => n ++ "#" ++ toString c

/-- The witness startup configuration. -/
def wConfig : MCPRouterConfig := { mcpServers := [wServerGood, wServerBad] }

theorem dictGet_cons (a : String) (b : α) (tl : List (String × α)) (k : String) :
    dictGet ((a, b) :: tl) k = if k = a then some b else dictGet tl k := by
  by_cases h : k = a
  · simp [dictGet, List.lookup, h]
  · have hb : (k == a) = false := by simp [beq_iff_eq]; exact h
    simp [dictGet, List.lookup, hb, h]

theorem dictGet_dictSet_self (l : List (String × α)) (k : String) (v : α) :
    dictGet (dictSet l k v) k = some v := by
  induction l with
  | nil => simp [dictSet, dictGet_cons, dictGet]
  | cons hd tl ih =>
      obtain ⟨a, b⟩ := hd
      by_cases h : a = k
      · simp [dictSet, h, dictGet_cons]
      · simp [dictSet, h, dictGet_cons, Ne.symm h, ih]

theorem dictGet_dictSet_other (l : List (String × α)) (k k' : String) (v : α)
    (hne : k' ≠ k) : dictGet (dictSet l k v) k' = dictGet l k' := by
  induction l with
  | nil => simp [dictSet, dictGet_cons, dictGet, hne]
  | cons hd tl ih =>
      obtain ⟨a, b⟩ := hd
      by_cases h : a = k
      · subst h
        simp [dictSet, dictGet_cons, hne]
      · simp [dictSet, h, dictGet_cons, ih]

theorem dictGet_dictDel_self (l : List (String × α)) (k : String) :
    dictGet (dictDel l k) k = none := by
  induction l with
  | nil => simp [dictDel, dictGet]
  | cons hd tl ih =>
      obtain ⟨a, b⟩ := hd
      by_cases h : a = k
      · simpa [dictDel, h] using ih
      · simp only [dictDel, List.filter] at ih ⊢
        have : (decide (¬((a, b) : String × α).1 = k)) = true := by simp [h]
        simp only [this]
        rw [dictGet_cons]
        simp [Ne.symm h]
        simpa using ih

theorem dictGet_dictDel_other (l : List (String × α)) (k k' : String)
    (hne : k' ≠ k) : dictGet (dictDel l k) k' = dictGet l k' := by
  induction l with
  | nil => simp [dictDel, dictGet]
  | cons hd tl ih =>
      obtain ⟨a, b⟩ := hd
      by_cases h : a = k
      · subst h
        simp only [dictDel, List.filter] at ih ⊢
        have : (decide (¬((a, b) : String × α).1 = a)) = false := by simp
        simp only [this]
        rw [dictGet_cons]
        simp [hne]
        simpa using ih
      · simp only [dictDel, List.filter] at ih ⊢
        have : (decide (¬((a, b) : String × α).1 = k)) = true := by simp [h]
        simp only [this]
        rw [dictGet_cons, dictGet_cons]
        by_cases h2 : k' = a
        · simp [h2]
        · simp [h2]; simpa using ih


theorem toolDict_foldl_lookup (f : ToolDef → β) (n : String) :
    ∀ (tools : List ToolDef) (acc : List (String × β)) (v : β),
      dictGet (List.foldl (fun acc t => dictSet acc t.name (f t)) acc tools) n = some v →
      (∃ t ∈ tools, t.name = n ∧ f t = v) ∨ dictGet acc n = some v := by
  intro tools
  induction tools with
  | nil => intro acc v h; exact Or.inr h
  | cons t ts ih =>
      intro acc v h
      simp only [List.foldl_cons] at h
      rcases ih (dictSet acc t.name (f t)) v h with h2 | h2
      · rcases h2 with ⟨t', ht', hn, hv⟩
        exact Or.inl ⟨t', List.mem_cons_of_mem t ht', hn, hv⟩
      · by_cases hn : n = t.name
        · subst hn
          rw [dictGet_dictSet_self] at h2
          exact Or.inl ⟨t, List.mem_cons_self t ts, rfl, Option.some_injective _ h2⟩
        · rw [dictGet_dictSet_other _ _ _ _ hn] at h2
          exact Or.inr h2

theorem toolDict_foldl_lookup_absent (f : ToolDef → β) (n : String) :
    ∀ (tools : List ToolDef) (acc : List (String × β)),
      (∀ t ∈ tools, t.name ≠ n) →
      dictGet (List.foldl (fun acc t => dictSet acc t.name (f t)) acc tools) n = dictGet acc n := by
  intro tools
  induction tools with
  | nil => intro acc _; rfl
  | cons t ts ih =>
      intro acc habs
      simp only [List.foldl_cons]
      rw [ih (dictSet acc t.name (f t)) (fun t' ht' => habs t' (List.mem_cons_of_mem t ht'))]
      have hne : n ≠ t.name := fun h => habs t (List.mem_cons_self t ts) h.symm
      exact dictGet_dictSet_other _ _ _ _ hne

theorem toolDict_lookup_some (f : ToolDef → β) (tools : List ToolDef)
    (n : String) (v : β) (h : dictGet (toolDict tools f) n = some v) :
    ∃ t ∈ tools, t.name = n ∧ f t = v := by
  rcases toolDict_foldl_lookup f n tools [] v h with h2 | h2
  · exact h2
  · simp [dictGet, List.lookup] at h2

theorem toolDict_foldl_lookup_present (f : ToolDef → β) (n : String) :
    ∀ (tools : List ToolDef) (acc : List (String × β)),
      ((∃ t ∈ tools, t.name = n) ∨ ∃ v, dictGet acc n = some v) →
      ∃ v, dictGet (List.foldl (fun acc t => dictSet acc t.name (f t)) acc tools) n = some v := by
  intro tools
  induction tools with
  | nil =>
      intro acc h
      rcases h with ⟨t, ht, _⟩ | h
      · exact absurd ht (List.not_mem_nil t)
      · exact h
  | cons t ts ih =>
      intro acc h
      simp only [List.foldl_cons]
      apply ih (dictSet acc t.name (f t))
      rcases h with ⟨t', ht', hn⟩ | ⟨v, hv⟩
      · rcases List.mem_cons.mp ht' with h0 | h0
        · subst h0
          exact Or.inr ⟨f t', hn ▸ dictGet_dictSet_self acc t'.name (f t')⟩
        · exact Or.inl ⟨t', h0, hn⟩
      · by_cases hn : n = t.name
        · exact Or.inr ⟨f t, hn ▸ dictGet_dictSet_self acc t.name (f t)⟩
        · exact Or.inr ⟨v, (dictGet_dictSet_other acc t.name n (f t) hn).symm ▸ hv⟩

theorem toolDict_lookup_none_iff (f : ToolDef → β) (tools : List ToolDef)
    (n : String) :
    dictGet (toolDict tools f) n = none ↔ ∀ t ∈ tools, t.name ≠ n := by
  constructor
  · intro h t ht hn
    rcases toolDict_foldl_lookup_present f n tools [] (Or.inl ⟨t, ht, hn⟩) with ⟨v, hv⟩
    rw [show toolDict tools f = List.foldl (fun acc t => dictSet acc t.name (f t)) [] tools from rfl] at h
    rw [hv] at h
    cases h
  · intro habs
    rw [show toolDict tools f = List.foldl (fun acc t => dictSet acc t.name (f t)) [] tools from rfl]
    rw [toolDict_foldl_lookup_absent f n tools [] habs]
    rfl

theorem mcp_router_poll_terminal_eq (env : Env) (st : EngineState)
    (a : RouterArgs) (cid : String) (r : BackgroundToolCallResult)
    (session : Session)
    (hact : a.action = "poll_tool_result")
    (hcid : a.tool_call_id = some cid)
    (hsess : dictGet st.hmap_mcp_server_to_session a.server_name = some session)
    (hp : ∃ p, parseArgsOpt env a.tool_arguments = Except.ok p)
    (hrec : dictGet st.hmap_call_id_to_results cid = some r)
    (hterm : r.status ≠ PENDING) :
    mcp_router env st a =
      (if r.status = COMPLETED then Except.ok ((r.results).getD [])
       else Except.ok [textBlock ("Status: " ++ statusText r.status
         ++ ". Error Message: " ++ optText r.error_message)],
       { st with hmap_call_id_to_results := dictDel st.hmap_call_id_to_results cid }) := by
  obtain ⟨p, hp⟩ := hp
  unfold mcp_router
  rw [if_pos (show a.action ∈ actionValues by rw [hact]; decide)]
  rw [hp, hsess]
  unfold routeAction
  rw [hact]
  simp only [hcid, hrec]
  simp [hterm]
  split <;> rfl

theorem mcp_router_poll_missing (env : Env) (st : EngineState)
    (a : RouterArgs) (cid : String) (session : Session)
    (hact : a.action = "poll_tool_result")
    (hcid : a.tool_call_id = some cid)
    (hsess : dictGet st.hmap_mcp_server_to_session a.server_name = some session)
    (hp : ∃ p, parseArgsOpt env a.tool_arguments = Except.ok p)
    (hrec : dictGet st.hmap_call_id_to_results cid = none) :
    mcp_router env st a = (.error .unknownTaskId, st) := by
  obtain ⟨p, hp⟩ := hp
  unfold mcp_router
  rw [if_pos (show a.action ∈ actionValues by rw [hact]; decide)]
  rw [hp, hsess]
  unfold routeAction
  rw [hact]
  simp only [hcid, hrec]
  simp

theorem mcp_router_spawn_eq (env : Env) (st : EngineState) (a : RouterArgs)
    (session : Session) (parsed : Option String)
    (hact : a.action = "spawn_tool_in_background")
    (hsess : dictGet st.hmap_mcp_server_to_session a.server_name = some session)
    (hp : parseArgsOpt env a.tool_arguments = Except.ok parsed) :
    mcp_router env st a =
      (.ok [textBlock ("tool_call_id: " ++ env.uuid), textBlock pollInstruction],
       { st with
           hmap_call_id_to_results :=
             dictSet st.hmap_call_id_to_results env.uuid
               { status := PENDING, error_message := none, results := none }
           background_tasks := st.background_tasks ++
             [{ tool_call_id := env.uuid
                server_name := a.server_name
                tool_name := a.tool_name
                tool_arguments := parsed
                timeout := a.timeout }] }) := by
  unfold mcp_router
  rw [if_pos (show a.action ∈ actionValues by rw [hact]; decide)]
  rw [hp, hsess]
  unfold routeAction
  rw [hact]
  simp


theorem mcp_router_poll_pending_eq (env : Env) (st : EngineState)
    (a : RouterArgs) (cid : String) (r : BackgroundToolCallResult)
    (session : Session)
    (hact : a.action = "poll_tool_result")
    (hcid : a.tool_call_id = some cid)
    (hsess : dictGet st.hmap_mcp_server_to_session a.server_name = some session)
    (hp : ∃ p, parseArgsOpt env a.tool_arguments = Except.ok p)
    (hrec : dictGet st.hmap_call_id_to_results cid = some r)
    (hpend : r.status = PENDING) :
    mcp_router env st a =
      (Except.ok [textBlock "Status: PENDING. The tool execution is still in progress. Please check back later."],
       st) := by
  obtain ⟨p, hp⟩ := hp
  unfold mcp_router
  rw [if_pos (show a.action ∈ actionValues by rw [hact]; decide)]
  rw [hp, hsess]
  unfold routeAction
  rw [hact]
  simp only [hcid, hrec, hpend, statusText]
  simp

theorem spawnMany_spec (a : RouterArgs) (session : Session)
    (pj : String → Option String) (ys : Option String → String → String)
    (parsed : Option String)
    (hact : a.action = "spawn_tool_in_background")
    (hp : ∀ u, parseArgsOpt { parseJson := pj, uuid := u, yamlSchema := ys }
      a.tool_arguments = Except.ok parsed) :
    ∀ (uuids : List String) (st : EngineState),
      uuids.Nodup →
      dictGet st.hmap_mcp_server_to_session a.server_name = some session →
      (spawnMany pj ys a st uuids).1 =
        List.map (fun u => Except.ok
          [textBlock ("tool_call_id: " ++ u), textBlock pollInstruction]) uuids
      ∧ (spawnMany pj ys a st uuids).2.hmap_mcp_server_to_session
          = st.hmap_mcp_server_to_session
      ∧ (spawnMany pj ys a st uuids).2.background_tasks
          = st.background_tasks ++ List.map (spawnTaskOf a parsed) uuids
      ∧ (∀ u ∈ uuids,
          dictGet (spawnMany pj ys a st uuids).2.hmap_call_id_to_results u
            = some { status := PENDING, error_message := none, results := none })
      ∧ (∀ k, k ∉ uuids →
          dictGet (spawnMany pj ys a st uuids).2.hmap_call_id_to_results k
            = dictGet st.hmap_call_id_to_results k) := by
  intro uuids
  induction uuids with
  | nil =>
      intro st _ hsess
      refine ⟨rfl, rfl, by simp [spawnMany], ?_, ?_⟩
      · intro u hu; exact absurd hu (List.not_mem_nil u)
      · intro k _; rfl
  | cons u rest ih =>
      intro st hnodup hsess
      have hone := mcp_router_spawn_eq
        { parseJson := pj, uuid := u, yamlSchema := ys } st a session parsed
        hact hsess (hp u)
      have hnd := List.nodup_cons.mp hnodup
      set st1 : EngineState :=
        { st with
            hmap_call_id_to_results :=
              dictSet st.hmap_call_id_to_results u
                { status := PENDING, error_message := none, results := none }
            background_tasks := st.background_tasks ++ [spawnTaskOf a parsed u] }
        with hst1
      have hsess1 : dictGet st1.hmap_mcp_server_to_session a.server_name
          = some session := hsess
      have hrest := ih st1 hnd.2 hsess1
      have hunf : spawnMany pj ys a st (u :: rest) =
          ((mcp_router { parseJson := pj, uuid := u, yamlSchema := ys } st a).1
            :: (spawnMany pj ys a
              (mcp_router { parseJson := pj, uuid := u, yamlSchema := ys } st a).2 rest).1,
           (spawnMany pj ys a
              (mcp_router { parseJson := pj, uuid := u, yamlSchema := ys } st a).2 rest).2) := rfl
      have hstate : (mcp_router { parseJson := pj, uuid := u, yamlSchema := ys } st a).2 = st1 := by
        rw [hone]; rfl
      have hfst : (mcp_router { parseJson := pj, uuid := u, yamlSchema := ys } st a).1 =
          Except.ok [textBlock ("tool_call_id: " ++ u), textBlock pollInstruction] := by
        rw [hone]
      refine ⟨?_, ?_, ?_, ?_, ?_⟩
      · rw [hunf]
        simp only [hstate, hfst, List.map_cons]
        exact congrArg _ hrest.1
      · rw [hunf]
        simp only [hstate]
        exact hrest.2.1
      · rw [hunf]
        simp only [hstate]
        rw [hrest.2.2.1]
        simp [hst1, spawnTaskOf]
      · intro v hv
        rw [hunf]
        simp only [hstate]
        rcases List.mem_cons.mp hv with h0 | h0
        · subst h0
          rw [hrest.2.2.2.2 v hnd.1]
          simp [hst1]
          exact dictGet_dictSet_self _ _ _
        · exact hrest.2.2.2.1 v h0
      · intro k hk
        have hk1 : k ≠ u := fun h => hk (h ▸ List.mem_cons_self u rest)
        have hk2 : k ∉ rest := fun h => hk (List.mem_cons_of_mem u h)
        rw [hunf]
        simp only [hstate]
        rw [hrest.2.2.2.2 k hk2]
        simp [hst1]
        exact dictGet_dictSet_other _ _ _ _ hk1

theorem startAll_foldl_spec (y : String → String → Nat → String)
    (f : MCPServer → StartupOutcome) :
    ∀ (servers : List MCPServer) (acc : List (String × Session)) (info : List String),
      (List.foldl (startAllStep y f) (acc, info) servers).2
        = info ++ List.filterMap (serverInfoLine y f) servers
      ∧ (∀ k, k ∉ List.map MCPServer.name servers →
          dictGet (List.foldl (startAllStep y f) (acc, info) servers).1 k = dictGet acc k)
      ∧ ((List.map MCPServer.name servers).Nodup →
          ∀ srv ∈ servers, ∀ s, start_mcp_server f srv = some s →
            dictGet (List.foldl (startAllStep y f) (acc, info) servers).1 srv.name = some s)
      ∧ ((List.map MCPServer.name servers).Nodup →
          ∀ srv ∈ servers, start_mcp_server f srv = none →
            dictGet (List.foldl (startAllStep y f) (acc, info) servers).1 srv.name
              = dictGet acc srv.name) := by
  intro servers
  induction servers with
  | nil =>
      intro acc info
      refine ⟨by simp, fun k _ => rfl, ?_, ?_⟩
      · intro _ srv hsrv; exact absurd hsrv (List.not_mem_nil srv)
      · intro _ srv hsrv; exact absurd hsrv (List.not_mem_nil srv)
  | cons srv ts ih =>
      intro acc info
      cases hstart : start_mcp_server f srv with
      | none =>
          have hstep : startAllStep y f (acc, info) srv = (acc, info) := by
            simp [startAllStep, hstart]
          have hline : serverInfoLine y f srv = none := by
            simp [serverInfoLine, hstart]
          have hih := ih acc info
          refine ⟨?_, ?_, ?_, ?_⟩
          · simp only [List.foldl_cons, hstep, List.filterMap_cons, hline]
            exact hih.1
          · intro k hk
            simp only [List.foldl_cons, hstep]
            exact hih.2.1 k (fun h => hk (List.mem_cons_of_mem _ h))
          · intro hnodup srv' hsrv' s hs
            have hnodup' := hnodup
            rw [List.map_cons] at hnodup'
            have hnd := List.nodup_cons.mp hnodup'
            rcases List.mem_cons.mp hsrv' with h0 | h0
            · subst h0; rw [hstart] at hs; cases hs
            · simp only [List.foldl_cons, hstep]
              exact hih.2.2.1 hnd.2 srv' h0 s hs
          · intro hnodup srv' hsrv' hs
            have hnodup' := hnodup
            rw [List.map_cons] at hnodup'
            have hnd := List.nodup_cons.mp hnodup'
            simp only [List.foldl_cons, hstep]
            rcases List.mem_cons.mp hsrv' with h0 | h0
            · subst h0
              exact hih.2.1 srv'.name hnd.1
            · exact hih.2.2.2 hnd.2 srv' h0 hs
      | some s =>
          have hstep : startAllStep y f (acc, info) srv =
              (dictSet acc srv.name s,
               info ++ [y srv.name srv.description s.tools.length]) := by
            simp [startAllStep, hstart]
          have hline : serverInfoLine y f srv
              = some (y srv.name srv.description s.tools.length) := by
            simp [serverInfoLine, hstart]
          have hih := ih (dictSet acc srv.name s)
            (info ++ [y srv.name srv.description s.tools.length])
          refine ⟨?_, ?_, ?_, ?_⟩
          · simp only [List.foldl_cons, hstep, List.filterMap_cons, hline]
            rw [hih.1]
            simp
          · intro k hk
            simp only [List.foldl_cons, hstep]
            rw [hih.2.1 k (fun h => hk (List.mem_cons_of_mem _ h))]
            exact dictGet_dictSet_other _ _ _ _
              (fun h => hk (by simp [h]))
          · intro hnodup srv' hsrv' s' hs
            have hnodup' := hnodup
            rw [List.map_cons] at hnodup'
            have hnd := List.nodup_cons.mp hnodup'
            simp only [List.foldl_cons, hstep]
            rcases List.mem_cons.mp hsrv' with h0 | h0
            · subst h0
              rw [hstart] at hs
              cases hs
              rw [hih.2.1 srv'.name hnd.1]
              exact dictGet_dictSet_self _ _ _
            · exact hih.2.2.1 hnd.2 srv' h0 s' hs
          · intro hnodup srv' hsrv' hs
            have hnodup' := hnodup
            rw [List.map_cons] at hnodup'
            have hnd := List.nodup_cons.mp hnodup'
            simp only [List.foldl_cons, hstep]
            rcases List.mem_cons.mp hsrv' with h0 | h0
            · subst h0; rw [hstart] at hs; cases hs
            · rw [hih.2.2.2 hnd.2 srv' h0 hs]
              have hne : srv'.name ≠ srv.name := by
                intro h
                exact hnd.1 (h ▸ List.mem_map_of_mem MCPServer.name h0)
              exact dictGet_dictSet_other _ _ _ _ hne


/-! The claims. -/

/-- Claim C4: polling a taskId whose record is PENDING returns the
in-progress notice and retains the record: the engine state (task table,
registry, tracked tasks) is returned exactly unchanged, so repeated polls
keep returning the same notice until the record changes. -/
theorem C4_poll_pending_returns_notice_and_retains
    (env : Env) (st : EngineState) (a : RouterArgs) (cid : String)
    (r : BackgroundToolCallResult) (session : Session)
    (hact : a.action = "poll_tool_result")
    (hcid : a.tool_call_id = some cid)
    (hsess : dictGet st.hmap_mcp_server_to_session a.server_name = some session)
    (hp : ∃ p, parseArgsOpt env a.tool_arguments = Except.ok p)
    (hrec : dictGet st.hmap_call_id_to_results cid = some r)
    (hpend : r.status = PENDING) :
    mcp_router env st a =
      (Except.ok [textBlock "Status: PENDING. The tool execution is still in progress. Please check back later."],
       st)
    ∧ mcp_router env (mcp_router env st a).2 a = mcp_router env st a := by
  have h1 := mcp_router_poll_pending_eq env st a cid r session hact hcid hsess hp hrec hpend
  refine ⟨h1, ?_⟩
  rw [h1]
  exact h1

/-- Witness for C4: a concrete PENDING record polled on a live engine. -/
theorem C4_witness :
    mcp_router wEnv wStateP
        { server_name := "alpha", action := "poll_tool_result", tool_call_id := some "t1" }
      = (Except.ok [textBlock "Status: PENDING. The tool execution is still in progress. Please check back later."],
         wStateP)
    ∧ mcp_router wEnv
        (mcp_router wEnv wStateP
          { server_name := "alpha", action := "poll_tool_result", tool_call_id := some "t1" }).2
        { server_name := "alpha", action := "poll_tool_result", tool_call_id := some "t1" }
      = mcp_router wEnv wStateP
          { server_name := "alpha", action := "poll_tool_result", tool_call_id := some "t1" } :=
  C4_poll_pending_returns_notice_and_retains wEnv wStateP
    { server_name := "alpha", action := "poll_tool_result", tool_call_id := some "t1" }
    "t1" { status := PENDING, error_message := none, results := none } wSession
    rfl rfl rfl ⟨none, rfl⟩ rfl rfl

/-- Claim C5: route validation — an unrecognized action fails with an
UnsupportedAction error before any session or backend is touched; a
backend name absent from the registry fails with an UnknownBackend error
(direct key fetch); supplied args that fail to parse fail with an
InvalidArguments error; each such error is raised synchronously for that
single call and the shared state (session registry and task table) is
returned unchanged. -/
theorem C5_route_validation_errors
    (env : Env) (st : EngineState) (a : RouterArgs) :
    (a.action ∉ actionValues →
      mcp_router env st a = (Except.error (RouterError.unsupportedAction a.action), st))
  ∧ (∀ s, a.action ∈ actionValues → a.tool_arguments = some s →
      env.parseJson s = none →
      mcp_router env st a = (Except.error RouterError.invalidArguments, st))
  ∧ (∀ parsed, a.action ∈ actionValues →
      parseArgsOpt env a.tool_arguments = Except.ok parsed →
      dictGet st.hmap_mcp_server_to_session a.server_name = none →
      mcp_router env st a = (Except.error (RouterError.unknownBackend a.server_name), st)) := by
  refine ⟨?_, ?_, ?_⟩
  · intro h
    unfold mcp_router
    rw [if_neg h]
  · intro s hmem hargs hbad
    unfold mcp_router
    rw [if_pos hmem, hargs]
    simp [parseArgsOpt, hbad]
  · intro parsed hmem hparse hnone
    unfold mcp_router
    rw [if_pos hmem, hparse, hnone]

/-- Witness for C5: the three validation failures on concrete calls. -/
theorem C5_witness :
    mcp_router wEnv wState { server_name := "alpha", action := "bogus" }
      = (Except.error (RouterError.unsupportedAction "bogus"), wState)
  ∧ mcp_router wEnv wState
      { server_name := "alpha", action := "list_tools", tool_arguments := some "not-json" }
      = (Except.error RouterError.invalidArguments, wState)
  ∧ mcp_router wEnv wState { server_name := "gamma", action := "list_tools" }
      = (Except.error (RouterError.unknownBackend "gamma"), wState) :=
  ⟨(C5_route_validation_errors wEnv wState
      { server_name := "alpha", action := "bogus" }).1 (by decide),
   (C5_route_validation_errors wEnv wState
      { server_name := "alpha", action := "list_tools", tool_arguments := some "not-json" }).2.1
      "not-json" (by decide) rfl rfl,
   (C5_route_validation_errors wEnv wState
      { server_name := "gamma", action := "list_tools" }).2.2
      none (by decide) rfl rfl⟩

/-- Claim C9: tool_arguments, when supplied, is json-parsed for every
recognized action — including list_tools and poll_tool_result, which never
use arguments — and the parse precedes backend resolution, so a call with
malformed tool_arguments and an unknown server_name fails with
InvalidArguments, not UnknownBackend. -/
theorem C9_parse_precedes_backend_lookup
    (env : Env) (st : EngineState) (a : RouterArgs) (s : String)
    (hmem : a.action ∈ actionValues)
    (hargs : a.tool_arguments = some s)
    (hbad : env.parseJson s = none)
    (_hnoback : dictGet st.hmap_mcp_server_to_session a.server_name = none) :
    mcp_router env st a = (Except.error RouterError.invalidArguments, st) := by
  unfold mcp_router
  rw [if_pos hmem, hargs]
  simp [parseArgsOpt, hbad]

/-- Witness for C9: malformed arguments plus unknown backend on the
argument-free poll action yields InvalidArguments. -/
theorem C9_witness :
    mcp_router wEnv wState
      { server_name := "gamma", action := "poll_tool_result"
        tool_arguments := some "not-json", tool_call_id := some "t1" }
      = (Except.error RouterError.invalidArguments, wState) :=
  C9_parse_precedes_backend_lookup wEnv wState
    { server_name := "gamma", action := "poll_tool_result"
      tool_arguments := some "not-json", tool_call_id := some "t1" }
    "not-json" (by decide) rfl rfl rfl

/-- Claim C1: polling a taskId whose record is terminal (COMPLETED, FAILED
or TIMEOUT) deletes the record from the table before returning, returns
the stored results for COMPLETED or a status-plus-error-message block for
FAILED/TIMEOUT, and a subsequent poll with the same taskId fails with the
UnknownTaskId (not-found) condition rather than re-returning the result. -/
theorem C1_poll_terminal_read_once_then_delete
    (env : Env) (st : EngineState) (a : RouterArgs) (cid : String)
    (r : BackgroundToolCallResult) (session : Session)
    (hact : a.action = "poll_tool_result")
    (hcid : a.tool_call_id = some cid)
    (hsess : dictGet st.hmap_mcp_server_to_session a.server_name = some session)
    (hp : ∃ p, parseArgsOpt env a.tool_arguments = Except.ok p)
    (hrec : dictGet st.hmap_call_id_to_results cid = some r)
    (hterm : r.status ≠ PENDING) :
    (mcp_router env st a).2.hmap_call_id_to_results
        = dictDel st.hmap_call_id_to_results cid
    ∧ dictGet (mcp_router env st a).2.hmap_call_id_to_results cid = none
    ∧ (∀ rs, r.status = COMPLETED → r.results = some rs →
        (mcp_router env st a).1 = Except.ok rs)
    ∧ (r.status = FAILED ∨ r.status = TIMEOUT →
        (mcp_router env st a).1 = Except.ok [textBlock ("Status: "
          ++ statusText r.status ++ ". Error Message: " ++ optText r.error_message)])
    ∧ (mcp_router env (mcp_router env st a).2 a).1
        = Except.error RouterError.unknownTaskId := by
  have hmain := mcp_router_poll_terminal_eq env st a cid r session
    hact hcid hsess hp hrec hterm
  have hsnd : (mcp_router env st a).2
      = { st with hmap_call_id_to_results := dictDel st.hmap_call_id_to_results cid } := by
    rw [hmain]
  refine ⟨?_, ?_, ?_, ?_, ?_⟩
  · rw [hsnd]
  · rw [hsnd]
    exact dictGet_dictDel_self st.hmap_call_id_to_results cid
  · intro rs hcomp hres
    rw [hmain]
    simp [hcomp, hres]
  · intro hor
    have hnc : r.status ≠ COMPLETED := by
      rcases hor with h | h <;> rw [h] <;> decide
    rw [hmain]
    simp [hnc]
  · rw [hsnd]
    rw [mcp_router_poll_missing env
      { st with hmap_call_id_to_results := dictDel st.hmap_call_id_to_results cid }
      a cid session hact hcid hsess hp
      (dictGet_dictDel_self st.hmap_call_id_to_results cid)]

/-- Witness for C1: consuming a concrete COMPLETED record, then polling it
again. -/
theorem C1_witness :
    (mcp_router wEnv wStateC
        { server_name := "alpha", action := "poll_tool_result", tool_call_id := some "t1" }).1
      = Except.ok [[("type", "text"), ("text", "done")]]
  ∧ dictGet (mcp_router wEnv wStateC
        { server_name := "alpha", action := "poll_tool_result", tool_call_id := some "t1" }).2.hmap_call_id_to_results
        "t1" = none
  ∧ (mcp_router wEnv
        (mcp_router wEnv wStateC
          { server_name := "alpha", action := "poll_tool_result", tool_call_id := some "t1" }).2
        { server_name := "alpha", action := "poll_tool_result", tool_call_id := some "t1" }).1
      = Except.error RouterError.unknownTaskId :=
  have h := C1_poll_terminal_read_once_then_delete wEnv wStateC
    { server_name := "alpha", action := "poll_tool_result", tool_call_id := some "t1" }
    "t1" wCompleted wSession rfl rfl rfl ⟨none, rfl⟩ rfl (by decide)
  ⟨h.2.2.1 [[("type", "text"), ("text", "done")]] rfl rfl, h.2.1, h.2.2.2.2⟩

/-- Claim C2: one background execution performs exactly one write to its
task-table entry, a terminal record: TIMEOUT with a message naming the
configured duration when the deadline fires, FAILED with the verbatim
error message when the invocation raises, COMPLETED with the cleaned
content blocks when it succeeds; entries of other taskIds are untouched. -/
theorem C2_background_execution_exactly_one_terminal_write
    (table : List (String × BackgroundToolCallResult)) (id : String)
    (session : Session) (tn targs : Option String) (tmo : Nat)
    (timedOut : Bool) :
    (∃ r, background_tool_execution table id session tn targs tmo timedOut
        = dictSet table id r ∧ r.status ≠ PENDING)
  ∧ (timedOut = true →
      background_tool_execution table id session tn targs tmo timedOut
        = dictSet table id
            { status := TIMEOUT
              error_message := some ("Tool execution exceeded timeout of "
                ++ toString tmo ++ " seconds.")
              results := none })
  ∧ (∀ raw, timedOut = false → session.invoke tn targs = InvokeResult.ok raw →
      background_tool_execution table id session tn targs tmo timedOut
        = dictSet table id
            { status := COMPLETED
              error_message := none
              results := some (List.map cleanContent raw) })
  ∧ (∀ msg, timedOut = false → session.invoke tn targs = InvokeResult.err msg →
      background_tool_execution table id session tn targs tmo timedOut
        = dictSet table id
            { status := FAILED, error_message := some msg, results := none })
  ∧ (∀ k, k ≠ id →
      dictGet (background_tool_execution table id session tn targs tmo timedOut) k
        = dictGet table k) := by
  refine ⟨?_, ?_, ?_, ?_, ?_⟩
  · cases timedOut with
    | true =>
        exact ⟨{ status := TIMEOUT
                 error_message := some ("Tool execution exceeded timeout of "
                   ++ toString tmo ++ " seconds.")
                 results := none },
               by simp [background_tool_execution], by simp⟩
    | false =>
        cases hinv : session.invoke tn targs with
        | ok raw =>
            exact ⟨{ status := COMPLETED
                     error_message := none
                     results := some (List.map cleanContent raw) },
                   by simp [background_tool_execution, run_tool, hinv], by simp⟩
        | err msg =>
            exact ⟨{ status := FAILED, error_message := some msg, results := none },
                   by simp [background_tool_execution, run_tool, hinv], by simp⟩
  · intro h
    subst h
    simp [background_tool_execution]
  · intro raw h hinv
    subst h
    simp [background_tool_execution, run_tool, hinv]
  · intro msg h hinv
    subst h
    simp [background_tool_execution, run_tool, hinv]
  · intro k hk
    cases timedOut with
    | true =>
        simp only [background_tool_execution, if_pos]
        exact dictGet_dictSet_other _ _ _ _ hk
    | false =>
        cases hinv : session.invoke tn targs with
        | ok raw =>
            simp only [background_tool_execution, run_tool, hinv,
              Bool.false_eq_true, if_false]
            exact dictGet_dictSet_other _ _ _ _ hk
        | err msg =>
            simp only [background_tool_execution, run_tool, hinv,
              Bool.false_eq_true, if_false]
            exact dictGet_dictSet_other _ _ _ _ hk

/-- Witness for C2: concrete timeout, success, and frame instances. -/
theorem C2_witness :
    background_tool_execution [] "bg1" wSession (some "echo") none 60 true
      = [("bg1", { status := TIMEOUT
                   error_message := some "Tool execution exceeded timeout of 60 seconds."
                   results := none })]
  ∧ background_tool_execution [] "bg1" wSession (some "echo") none 60 false
      = [("bg1", { status := COMPLETED
                   error_message := none
                   results := some [[("type", "text"), ("text", "hi")]] })]
  ∧ dictGet (background_tool_execution [] "bg1" wSession (some "echo") none 60 true)
      "other" = none :=
  have h := C2_background_execution_exactly_one_terminal_write
    [] "bg1" wSession (some "echo") none 60 true
  have h2 := C2_background_execution_exactly_one_terminal_write
    [] "bg1" wSession (some "echo") none 60 false
  ⟨by rw [h.2.1 rfl]; rfl,
   by rw [h2.2.2.1 [[("type", "text"), ("text", "hi"), ("annotations", "a"), ("meta", "m")]] rfl rfl]; rfl,
   by rw [h.2.2.2.2 "other" (by decide)]; rfl⟩

/-- Claim C3: a spawn_tool_in_background call generates a fresh TaskId
(distinct per uuid draw: spawning N times with N distinct uuids yields N
distinct ids), inserts a PENDING TaskRecord, records the launched unit
bound to the given timeout in the engine's tracked task list, and returns
the TaskId plus polling instructions immediately — the response and state
never depend on the session's invoke behavior. -/
theorem C3_spawn_fresh_pending_tracked_immediate
    (env : Env) (st : EngineState) (a : RouterArgs) (session : Session)
    (parsed : Option String)
    (hact : a.action = "spawn_tool_in_background")
    (hsess : dictGet st.hmap_mcp_server_to_session a.server_name = some session)
    (hp : parseArgsOpt env a.tool_arguments = Except.ok parsed) :
    mcp_router env st a =
      (Except.ok [textBlock ("tool_call_id: " ++ env.uuid), textBlock pollInstruction],
       { st with
           hmap_call_id_to_results :=
             dictSet st.hmap_call_id_to_results env.uuid
               { status := PENDING, error_message := none, results := none }
           background_tasks := st.background_tasks ++ [spawnTaskOf a parsed env.uuid] })
  ∧ (∀ s1 s2 : Session, routeAction env st a parsed s1 = routeAction env st a parsed s2)
  ∧ (∀ uuids : List String, uuids.Nodup →
      (spawnMany env.parseJson env.yamlSchema a st uuids).1
        = List.map (fun u => Except.ok
            [textBlock ("tool_call_id: " ++ u), textBlock pollInstruction]) uuids
      ∧ (∀ u ∈ uuids,
          dictGet (spawnMany env.parseJson env.yamlSchema a st uuids).2.hmap_call_id_to_results u
            = some { status := PENDING, error_message := none, results := none })
      ∧ (spawnMany env.parseJson env.yamlSchema a st uuids).2.background_tasks
          = st.background_tasks ++ List.map (spawnTaskOf a parsed) uuids) := by
  refine ⟨?_, ?_, ?_⟩
  · exact mcp_router_spawn_eq env st a session parsed hact hsess hp
  · intro s1 s2
    unfold routeAction
    rw [hact]
    simp
  · intro uuids hnd
    have hs := spawnMany_spec a session env.parseJson env.yamlSchema parsed hact
      (fun _ => hp) uuids st hnd hsess
    exact ⟨hs.1, hs.2.2.2.1, hs.2.2.1⟩

/-- Witness for C3: one concrete spawn, then two spawns with distinct
uuids. -/
theorem C3_witness :
    mcp_router wEnv wState
      { server_name := "alpha", action := "spawn_tool_in_background"
        tool_name := some "echo", tool_arguments := some "42" }
      = (Except.ok [textBlock "tool_call_id: uuid-1", textBlock pollInstruction],
         { wState with
             hmap_call_id_to_results :=
               [("uuid-1", { status := PENDING, error_message := none, results := none })]
             background_tasks :=
               [{ tool_call_id := "uuid-1", server_name := "alpha"
                  tool_name := some "echo", tool_arguments := some "42", timeout := 60 }] })
  ∧ (spawnMany wEnv.parseJson wEnv.yamlSchema
      { server_name := "alpha", action := "spawn_tool_in_background"
        tool_name := some "echo", tool_arguments := some "42" }
      wState ["u1", "u2"]).1
      = [Except.ok [textBlock "tool_call_id: u1", textBlock pollInstruction],
         Except.ok [textBlock "tool_call_id: u2", textBlock pollInstruction]]
  ∧ dictGet (spawnMany wEnv.parseJson wEnv.yamlSchema
      { server_name := "alpha", action := "spawn_tool_in_background"
        tool_name := some "echo", tool_arguments := some "42" }
      wState ["u1", "u2"]).2.hmap_call_id_to_results "u2"
      = some { status := PENDING, error_message := none, results := none } :=
  have h := C3_spawn_fresh_pending_tracked_immediate wEnv wState
    { server_name := "alpha", action := "spawn_tool_in_background"
      tool_name := some "echo", tool_arguments := some "42" }
    wSession (some "42") rfl rfl rfl
  have h2 := h.2.2 ["u1", "u2"] (by decide)
  ⟨by rw [h.1]; rfl, by rw [h2.1]; rfl, h2.2.1 "u2" (by decide)⟩

/-- Claim C8: for a registered backend, describe and schema answer from
the session's current tool listing: the returned description (resp. input
schema, wrapped by the yaml renderer) is exactly the one the current
listing carries for that capability name, and a name absent from the
current listing fails with UnknownCapability. -/
theorem C8_describe_schema_answer_from_live_listing
    (env : Env) (st : EngineState) (a : RouterArgs) (session : Session)
    (tn : String)
    (hsess : dictGet st.hmap_mcp_server_to_session a.server_name = some session)
    (htn : a.tool_name = some tn)
    (hp : ∃ p, parseArgsOpt env a.tool_arguments = Except.ok p) :
    (a.action = "get_description" →
      (∀ d, dictGet (toolDict session.tools (fun t => t.description)) tn = some d →
        mcp_router env st a = (Except.ok [textBlock d], st)
        ∧ ∃ t ∈ session.tools, t.name = tn ∧ t.description = d)
      ∧ ((∀ t ∈ session.tools, t.name ≠ tn) →
        mcp_router env st a = (Except.error RouterError.unknownCapability, st)))
  ∧ (a.action = "get_tool_schema" →
      (∀ sch, dictGet (toolDict session.tools (fun t => t.inputSchema)) tn = some sch →
        mcp_router env st a
          = (Except.ok [textBlock (env.yamlSchema a.tool_name sch)], st)
        ∧ ∃ t ∈ session.tools, t.name = tn ∧ t.inputSchema = sch)
      ∧ ((∀ t ∈ session.tools, t.name ≠ tn) →
        mcp_router env st a = (Except.error RouterError.unknownCapability, st))) := by
  obtain ⟨p, hp2⟩ := hp
  refine ⟨?_, ?_⟩
  · intro hact
    refine ⟨?_, ?_⟩
    · intro d hd
      refine ⟨?_, toolDict_lookup_some _ _ _ _ hd⟩
      unfold mcp_router
      rw [if_pos (show a.action ∈ actionValues by rw [hact]; decide)]
      rw [hp2, hsess]
      unfold routeAction
      rw [hact]
      simp [htn, dictGetOpt, hd]
    · intro habs
      have hnone := (toolDict_lookup_none_iff (fun t => t.description)
        session.tools tn).mpr habs
      unfold mcp_router
      rw [if_pos (show a.action ∈ actionValues by rw [hact]; decide)]
      rw [hp2, hsess]
      unfold routeAction
      rw [hact]
      simp [htn, dictGetOpt, hnone]
  · intro hact
    refine ⟨?_, ?_⟩
    · intro sch hsch
      refine ⟨?_, toolDict_lookup_some _ _ _ _ hsch⟩
      unfold mcp_router
      rw [if_pos (show a.action ∈ actionValues by rw [hact]; decide)]
      rw [hp2, hsess]
      unfold routeAction
      rw [hact]
      simp [htn, dictGetOpt, hsch]
    · intro habs
      have hnone := (toolDict_lookup_none_iff (fun t => t.inputSchema)
        session.tools tn).mpr habs
      unfold mcp_router
      rw [if_pos (show a.action ∈ actionValues by rw [hact]; decide)]
      rw [hp2, hsess]
      unfold routeAction
      rw [hact]
      simp [htn, dictGetOpt, hnone]

/-- Witness for C8: concrete describe hit, schema hit, and a miss. -/
theorem C8_witness :
    mcp_router wEnv wState
      { server_name := "alpha", action := "get_description", tool_name := some "echo" }
      = (Except.ok [textBlock "echoes the input"], wState)
  ∧ mcp_router wEnv wState
      { server_name := "alpha", action := "get_tool_schema", tool_name := some "echo" }
      = (Except.ok [textBlock "schema: echo-schema"], wState)
  ∧ mcp_router wEnv wState
      { server_name := "alpha", action := "get_description", tool_name := some "nope" }
      = (Except.error RouterError.unknownCapability, wState) :=
  have h1 := C8_describe_schema_answer_from_live_listing wEnv wState
    { server_name := "alpha", action := "get_description", tool_name := some "echo" }
    wSession "echo" rfl rfl ⟨none, rfl⟩
  have h2 := C8_describe_schema_answer_from_live_listing wEnv wState
    { server_name := "alpha", action := "get_tool_schema", tool_name := some "echo" }
    wSession "echo" rfl rfl ⟨none, rfl⟩
  have h3 := C8_describe_schema_answer_from_live_listing wEnv wState
    { server_name := "alpha", action := "get_description", tool_name := some "nope" }
    wSession "nope" rfl rfl ⟨none, rfl⟩
  ⟨((h1.1 rfl).1 "echoes the input" rfl).1,
   ((h2.2 rfl).1 "echo-schema" rfl).1,
   (h3.1 rfl).2 (by decide)⟩

theorem filterMap_eq_nil_of_all_none (g : α → Option β) :
    ∀ l : List α, (∀ x ∈ l, g x = none) → List.filterMap g l = [] := by
  intro l
  induction l with
  | nil => intro _; rfl
  | cons x xs ih =>
      intro h
      rw [List.filterMap_cons, h x (List.mem_cons_self x xs)]
      exact ih (fun x2 hx2 => h x2 (List.mem_cons_of_mem x hx2))

/-- Claim C10: task ids are not scoped to a backend: a poll requires
server_name to be registered (failing with UnknownBackend otherwise, even
when the taskId exists) although the resolved session is never used, the
poll outcome is identical under any registered backend name, and a task
spawned via one backend is consumed — its entry deleted — by a poll naming
any other registered backend, the table being keyed by taskId alone. -/
theorem C10_poll_requires_backend_but_table_is_engine_wide
    (env : Env) (st : EngineState) (a : RouterArgs) (cid : String)
    (r : BackgroundToolCallResult) (n1 n2 : String) (s1 s2 : Session)
    (hact : a.action = "poll_tool_result")
    (hcid : a.tool_call_id = some cid)
    (hp : ∃ p, parseArgsOpt env a.tool_arguments = Except.ok p)
    (hrec : dictGet st.hmap_call_id_to_results cid = some r) :
    (dictGet st.hmap_mcp_server_to_session a.server_name = none →
      mcp_router env st a = (Except.error (RouterError.unknownBackend a.server_name), st))
  ∧ (dictGet st.hmap_mcp_server_to_session n1 = some s1 →
     dictGet st.hmap_mcp_server_to_session n2 = some s2 →
      mcp_router env st { a with server_name := n1 }
        = mcp_router env st { a with server_name := n2 })
  ∧ (dictGet st.hmap_mcp_server_to_session n2 = some s2 → r.status ≠ PENDING →
      (mcp_router env st { a with server_name := n2 }).2.hmap_call_id_to_results
        = dictDel st.hmap_call_id_to_results cid) := by
  obtain ⟨p, hp2⟩ := hp
  refine ⟨?_, ?_, ?_⟩
  · intro hnone
    unfold mcp_router
    rw [if_pos (show a.action ∈ actionValues by rw [hact]; decide)]
    rw [hp2, hnone]
  · intro h1 h2
    by_cases hpend : r.status = PENDING
    · rw [mcp_router_poll_pending_eq env st { a with server_name := n1 } cid r s1
          hact hcid h1 ⟨p, hp2⟩ hrec hpend,
        mcp_router_poll_pending_eq env st { a with server_name := n2 } cid r s2
          hact hcid h2 ⟨p, hp2⟩ hrec hpend]
    · rw [mcp_router_poll_terminal_eq env st { a with server_name := n1 } cid r s1
          hact hcid h1 ⟨p, hp2⟩ hrec hpend,
        mcp_router_poll_terminal_eq env st { a with server_name := n2 } cid r s2
          hact hcid h2 ⟨p, hp2⟩ hrec hpend]
  · intro h2 hterm
    rw [mcp_router_poll_terminal_eq env st { a with server_name := n2 } cid r s2
      hact hcid h2 ⟨p, hp2⟩ hrec hterm]

/-- Witness for C10: the COMPLETED record t1 polled with an unregistered
name fails, and polls via the two registered backends agree and consume
it. -/
theorem C10_witness :
    mcp_router wEnv wStateC
      { server_name := "gamma", action := "poll_tool_result", tool_call_id := some "t1" }
      = (Except.error (RouterError.unknownBackend "gamma"), wStateC)
  ∧ mcp_router wEnv wStateC
      { server_name := "alpha", action := "poll_tool_result", tool_call_id := some "t1" }
      = mcp_router wEnv wStateC
        { server_name := "beta", action := "poll_tool_result", tool_call_id := some "t1" }
  ∧ (mcp_router wEnv wStateC
      { server_name := "beta", action := "poll_tool_result", tool_call_id := some "t1" }).2.hmap_call_id_to_results
      = [] :=
  have h := C10_poll_requires_backend_but_table_is_engine_wide wEnv wStateC
    { server_name := "gamma", action := "poll_tool_result", tool_call_id := some "t1" }
    "t1" wCompleted "alpha" "beta" wSession wSession2 rfl rfl ⟨none, rfl⟩ rfl
  ⟨h.1 rfl, h.2.1 rfl rfl, by rw [h.2.2 rfl (by decide)]; rfl⟩

/-- Claim C6: the shutdown trace of __aexit__ splits into a prefix that
contains a cancellation and a finalization event for every one of the K
tracked background tasks and no session release, followed by a suffix
consisting exactly of the session releases — every background unit is
cancelled and reaches a final state before any session is released. -/
theorem C6_shutdown_finalizes_all_tasks_before_releasing_sessions
    (K : Nat) (names : List String) :
    ∃ pre post, aexitTrace K names = pre ++ post
      ∧ (∀ i, i < K → ShutdownEvent.cancelled i ∈ pre)
      ∧ (∀ i, i < K → ShutdownEvent.finalized i ∈ pre)
      ∧ (∀ e ∈ pre, ∀ n, e ≠ ShutdownEvent.sessionReleased n)
      ∧ (∀ n ∈ names, ShutdownEvent.sessionReleased n ∈ post)
      ∧ (∀ e ∈ post, ∃ n ∈ names, e = ShutdownEvent.sessionReleased n) := by
  refine ⟨List.map ShutdownEvent.cancelled (List.range K)
      ++ List.map ShutdownEvent.finalized (List.range K),
    List.map ShutdownEvent.sessionReleased names.reverse,
    by simp [aexitTrace], ?_, ?_, ?_, ?_, ?_⟩
  · intro i hi
    exact List.mem_append_left _ (List.mem_map_of_mem _ (List.mem_range.mpr hi))
  · intro i hi
    exact List.mem_append_right _ (List.mem_map_of_mem _ (List.mem_range.mpr hi))
  · intro e he n
    rcases List.mem_append.mp he with h | h <;>
      (rcases List.mem_map.mp h with ⟨i, _, rfl⟩; intro hcon; cases hcon)
  · intro n hn
    exact List.mem_map_of_mem _ (List.mem_reverse.mpr hn)
  · intro e he
    rcases List.mem_map.mp he with ⟨n, hn, rfl⟩
    exact ⟨n, List.mem_reverse.mp hn, rfl⟩

/-- Claim C7: after start_all_mcp_servers over any descriptor list with
unique names, starting from an empty registry, the registry holds exactly
the backends whose startup succeeded within their timeout; a backend that
timed out or failed is absent and contributes no summary line; one
backend's failure does not block registration of the others; the summary
is the joined lines of the started backends, or the explicit none-started
marker when nothing starts. -/
theorem C7_start_all_registry_matches_successes
    (y : String → String → Nat → String) (f : MCPServer → StartupOutcome)
    (cfg : MCPRouterConfig)
    (hnodup : (List.map MCPServer.name cfg.mcpServers).Nodup) :
    (∀ srv ∈ cfg.mcpServers, ∀ s, f srv = StartupOutcome.success s →
      dictGet (start_all_mcp_servers y f [] cfg).1 srv.name = some s)
  ∧ (∀ srv ∈ cfg.mcpServers,
      (f srv = StartupOutcome.timeoutErr ∨ ∃ m, f srv = StartupOutcome.failureErr m) →
      dictGet (start_all_mcp_servers y f [] cfg).1 srv.name = none
      ∧ serverInfoLine y f srv = none)
  ∧ (∀ k s, dictGet (start_all_mcp_servers y f [] cfg).1 k = some s →
      ∃ srv ∈ cfg.mcpServers, srv.name = k ∧ f srv = StartupOutcome.success s)
  ∧ (start_all_mcp_servers y f [] cfg).2
      = (if (List.filterMap (serverInfoLine y f) cfg.mcpServers).isEmpty
         then "No MCP servers started successfully."
         else String.intercalate "\n###\n"
           (List.filterMap (serverInfoLine y f) cfg.mcpServers))
  ∧ ((∀ srv ∈ cfg.mcpServers, ∀ s, f srv ≠ StartupOutcome.success s) →
      (start_all_mcp_servers y f [] cfg).2 = "No MCP servers started successfully.") := by
  have hfold := startAll_foldl_spec y f cfg.mcpServers [] []
  have hinfo : (List.foldl (startAllStep y f) ([], []) cfg.mcpServers).2
      = List.filterMap (serverInfoLine y f) cfg.mcpServers := by
    rw [hfold.1]
    exact List.nil_append _
  have hsummary : (start_all_mcp_servers y f [] cfg).2
      = (if (List.filterMap (serverInfoLine y f) cfg.mcpServers).isEmpty
         then "No MCP servers started successfully."
         else String.intercalate "\n###\n"
           (List.filterMap (serverInfoLine y f) cfg.mcpServers)) := by
    show (if (List.foldl (startAllStep y f) ([], []) cfg.mcpServers).2.isEmpty
         then "No MCP servers started successfully."
         else String.intercalate "\n###\n"
           (List.foldl (startAllStep y f) ([], []) cfg.mcpServers).2) = _
    rw [hinfo]
  refine ⟨?_, ?_, ?_, hsummary, ?_⟩
  · intro srv hsrv s hs
    have hstart : start_mcp_server f srv = some s := by
      simp [start_mcp_server, hs]
    exact hfold.2.2.1 hnodup srv hsrv s hstart
  · intro srv hsrv hfail
    have hstart : start_mcp_server f srv = none := by
      rcases hfail with h | ⟨m, h⟩ <;> simp [start_mcp_server, h]
    constructor
    · have h0 := hfold.2.2.2 hnodup srv hsrv hstart
      rw [show (start_all_mcp_servers y f [] cfg).1
        = (List.foldl (startAllStep y f) ([], []) cfg.mcpServers).1 from rfl]
      rw [h0]
      rfl
    · simp [serverInfoLine, hstart]
  · intro k s hk
    by_cases hkmem : k ∈ List.map MCPServer.name cfg.mcpServers
    · obtain ⟨srv, hsrv, hname⟩ := List.mem_map.mp hkmem
      cases hstart : start_mcp_server f srv with
      | none =>
          have h0 := hfold.2.2.2 hnodup srv hsrv hstart
          rw [hname] at h0
          rw [show (start_all_mcp_servers y f [] cfg).1
            = (List.foldl (startAllStep y f) ([], []) cfg.mcpServers).1 from rfl] at hk
          rw [h0] at hk
          exact Option.noConfusion hk
      | some s0 =>
          have h0 := hfold.2.2.1 hnodup srv hsrv s0 hstart
          rw [hname] at h0
          rw [show (start_all_mcp_servers y f [] cfg).1
            = (List.foldl (startAllStep y f) ([], []) cfg.mcpServers).1 from rfl] at hk
          rw [h0] at hk
          have hs0 : s0 = s := Option.some_injective _ hk
          subst hs0
          refine ⟨srv, hsrv, hname, ?_⟩
          cases hf : f srv with
          | success s2 =>
              have h2 : some s2 = some s0 := by
                rw [← hstart]
                simp [start_mcp_server, hf]
              have h3 : s2 = s0 := Option.some_injective _ h2
              exact congrArg StartupOutcome.success h3
          | timeoutErr => simp [start_mcp_server, hf] at hstart
          | failureErr m => simp [start_mcp_server, hf] at hstart
    · have h0 := hfold.2.1 k hkmem
      rw [show (start_all_mcp_servers y f [] cfg).1
        = (List.foldl (startAllStep y f) ([], []) cfg.mcpServers).1 from rfl] at hk
      rw [h0] at hk
      exact Option.noConfusion hk
  · intro hall
    rw [hsummary]
    have hnil : List.filterMap (serverInfoLine y f) cfg.mcpServers = [] := by
      apply filterMap_eq_nil_of_all_none
      intro srv hsrv
      cases hf : f srv with
      | success s2 => exact absurd hf (hall srv hsrv s2)
      | timeoutErr => simp [serverInfoLine, start_mcp_server, hf]
      | failureErr m => simp [serverInfoLine, start_mcp_server, hf]
    rw [hnil]
    rfl

/-- Witness for C7: a config of one starting and one timing-out backend. -/
theorem C7_witness :
    dictGet (start_all_mcp_servers wYamlInfo wStartOutcome [] wConfig).1 "good"
      = some wSession
  ∧ dictGet (start_all_mcp_servers wYamlInfo wStartOutcome [] wConfig).1 "bad"
      = none
  ∧ (start_all_mcp_servers wYamlInfo wStartOutcome [] wConfig).2 = "good#1" :=
  have h := C7_start_all_registry_matches_successes wYamlInfo wStartOutcome wConfig
    (by decide)
  ⟨h.1 wServerGood (by decide) wSession rfl,
   (h.2.1 wServerBad (by decide) (Or.inl rfl)).1,
   by rw [h.2.2.2.1]; rfl⟩

end MCPRouter
